import Mathlib

/-!
Shallow embedding of the BlueSky command stack (src/bluesky/stack/stack.py):
the command dictionary and synonym table, the per-line dispatcher with its
argument-coercion loop, the scenario-file loader (openfile), the scheduler
tick (checkfile), and the pending-queue drain loop (process).

Strings are modelled as lists of characters, simulated times as rationals.
Collaborator objects (sim, traf, scr) are external: their observable effects
are recorded as events, and handler return values are supplied by an
abstract handler-behaviour function.
-/

namespace BlueSky

/-- A piece of text from the source program: its list of characters. -/
abbrev Str := List Char

/-- The whitespace set stripped by the Python strip method. -/
def isPySpace (c : Char) : Bool :=
  c == ' ' || c == '\t' || c == '\n' || c == '\x0b' || c == '\x0c' || c == '\r'

/-- Python strip(): remove leading and trailing whitespace. -/
def pyStrip (s : Str) : Str :=
  ((s.dropWhile isPySpace).reverse.dropWhile isPySpace).reverse

/-- Python upper() on the ASCII letters used by the command language. -/
def pyUpper (s : Str) : Str := s.map Char.toUpper

/-- Python split(sep) with a one-character separator: the empty string gives
one empty field, and consecutive separators give empty fields. -/
def splitOnChar (c : Char) : Str → List Str
  | [] => [[]]
  | x :: xs =>
    let r := splitOnChar c xs
    if x == c then [] :: r
    else
      match r with
      | h :: t => (x :: h) :: t
      | [] => [[x]]

/-- Python strip(chars): remove the given characters from both ends. -/
def stripChars (cs : List Char) (s : Str) : Str :=
  ((s.dropWhile (cs.contains ·)).reverse.dropWhile (cs.contains ·)).reverse

/-- Python index(ch): position of the first occurrence, if any (the source
catches the ValueError raised when the character is absent). -/
def indexOfChar (c : Char) : Str → Option Nat
  | [] => none
  | x :: xs => if x == c then some 0 else (indexOfChar c xs).map (· + 1)

/-- Numeric value of a string of decimal digits. -/
def digitsToNat (s : Str) : Nat := s.foldl (fun n c => 10 * n + (c.toNat - 48)) 0

/-- Modelled from the spec: the Python builtin int(), restricted to the
decimal forms used by the HH:MM:SS timestamp grammar of section 6 (optional
sign and a non-empty digit string, surrounding whitespace ignored); any other
input raises, which this model reports as none. -/
def pyInt (s0 : Str) : Option Int :=
  let s := pyStrip s0
  let p : Int × Str :=
    match s with
    | '+' :: r => (1, r)
    | '-' :: r => (-1, r)
    | r => (1, r)
  if p.2 ≠ [] ∧ p.2.all Char.isDigit then some (p.1 * digitsToNat p.2) else none

/-- Modelled from the spec: the Python builtin float(), restricted to the
plain decimal forms of the spec grammar (optional sign, integer digits
and/or a fractional part); exponent and special forms are outside the
formats the spec describes. Failure raises, reported here as none. -/
def pyFloat (s0 : Str) : Option ℚ :=
  let s := pyStrip s0
  let p : ℚ × Str :=
    match s with
    | '+' :: r => (1, r)
    | '-' :: r => (-1, r)
    | r => (1, r)
  let ip := p.2.takeWhile Char.isDigit
  let rest := p.2.dropWhile Char.isDigit
  match rest with
  | [] => if ip = [] then none else some (p.1 * digitsToNat ip)
  | '.' :: fp =>
    if fp.all Char.isDigit ∧ (ip ≠ [] ∨ fp ≠ []) then
      some (p.1 * ((digitsToNat ip : ℚ) + (digitsToNat fp : ℚ) / (10 ^ fp.length)))
    else none
  | _ => none

/-- Python replace(old, new) for a one-character pattern. -/
def replaceChar (old new : Char) (s : Str) : Str :=
  s.map (fun c => if c == old then new else c)

/-- Python replace(ch, empty): delete every occurrence of a character. -/
def removeChar (old : Char) (s : Str) : Str :=
  s.filter (fun c => !(c == old))

/-- Python replace of two dots by one dot, left to right, non-overlapping
(used by the speed coercion after substituting M by a dot). -/
def collapseDD : Str → Str
  | '.' :: '.' :: r => '.' :: collapseDD r
  | c :: r => c :: collapseDD r
  | [] => []

/-! ## Scenario-file loading (openfile, lines 286-356) -/

/-- One scenario line parsed: trigger time and command text.
Mirrors lines 340-348 of the source: find the first greater-than sign, split
the timestamp on colons, read hour, minute and seconds, add the time offset;
the command text is everything after the delimiter with the final character
(the newline kept by readlines) dropped. Any failure is the caught syntax
error that skips the line. -/
def parseScenLine (toff : ℚ) (line : Str) : Option (ℚ × Str) :=
  match indexOfChar '>' line with
  | none => none
  | some i =>
    let ttxt := splitOnChar ':' (pyStrip (line.take i))
    match pyInt (ttxt.getD 0 []), pyInt (ttxt.getD 1 []), pyFloat (ttxt.getD 2 []) with
    | some ihr, some imin, some xsec =>
      if ttxt.length ≥ 3 then
        some ((ihr : ℚ) * 3600 + (imin : ℚ) * 60 + xsec + toff, (line.drop (i + 1)).dropLast)
      else none
    | _, _, _ => none

/-- The in-place deletion loop of lines 313-318: drop lines that strip to at
most twelve characters or start with the comment marker. -/
def prefilter (lines : List Str) : List Str :=
  lines.filter (fun l => !(decide ((pyStrip l).length ≤ 12) || (l.headD ' ' == '#')))

/-- The guard at line 338 combined with the per-line try of lines 340-351:
a kept line whose stripped form starts with the comment marker is passed
over, otherwise it is parsed and appended when parsing succeeds. -/
def scanLine (toff : ℚ) (l : Str) : Option (ℚ × Str) :=
  if (pyStrip l).headD ' ' = '#' then none else parseScenLine toff l

/-- The for loop of lines 337-351: accumulate accepted entries onto the
current timeline (scentime and scencmd evolve in lockstep, modelled as one
list of pairs). -/
def parseLoop (toff : ℚ) : List Str → List (ℚ × Str) → List (ℚ × Str)
  | [], acc => acc
  | l :: rest, acc =>
    match scanLine toff l with
    | some e => parseLoop toff rest (acc ++ [e])
    | none => parseLoop toff rest acc

/-- Insert an entry into an already sorted timeline after every entry whose
trigger time is less than or equal to its own. -/
def insEntry (e : ℚ × Str) : List (ℚ × Str) → List (ℚ × Str)
  | [] => [e]
  | x :: xs => if x.1 ≤ e.1 then x :: insEntry e xs else e :: x :: xs

/-- The sort of lines 355-356: the Python builtin sorted keyed on the
timestamp alone is a stable sort by trigger time; this insertion sort is
characterised below as sorted and stable, which pins down the same output. -/
def sortByTime (l : List (ℚ × Str)) : List (ℚ × Str) :=
  l.foldl (fun acc e => insEntry e acc) []

/-- openfile from the point where the file lines have been read (lines
313-356): returns the resulting timeline state together with a flag that is
true when the call completes normally. When merging and the combined list is
empty, the unpacking of the empty zip at lines 355-356 raises an uncaught
ValueError: the flag is false and the timeline state is the (empty)
concatenation left behind by the appends. -/
def openfileCore (old : List (ℚ × Str)) (lines : List Str) (toff : ℚ)
    (merge : Bool) : List (ℚ × Str) × Bool :=
  let base := if merge then old else []
  let newtl := parseLoop toff (prefilter lines) base
  if merge then
    if newtl = [] then ([], false) else (sortByTime newtl, true)
  else (newtl, true)

/-! ## The stack method and the scheduler tick (lines 279-284, 366-373) -/

/-- stack(cmdline), lines 279-284: strip the input; when non-empty, append
every semicolon-separated segment to the pending command stack. -/
def stackCmd (stk : List Str) (cmdline : Str) : List Str :=
  let s := pyStrip cmdline
  if s.length > 0 then stk ++ splitOnChar ';' s else stk

/-- checkfile(simt), lines 366-373: while the timeline is non-empty and the
simulated time has reached the head entry, stack its command and delete the
head; returns the remaining times, remaining commands and the grown command
stack. -/
def checkfile (simt : ℚ) : List ℚ → List Str → List Str → List ℚ × List Str × List Str
  | t :: ts, c :: cs, stk =>
    if t ≤ simt then checkfile simt ts cs (stackCmd stk c)
    else (t :: ts, c :: cs, stk)
  | ts, cs, stk => (ts, cs, stk)

/-! ## The drain loop of process (lines 448-455 and 1598-1600)

The for loop iterates over the live list, so lines appended to the command
stack while the pass runs are reached in first-in first-out order; the
function f abstracts the lines that processing one line appends (through
handlers or extension modules). Fuel bounds the recursion: a pass that never
exhausts the queue (a handler that re-enqueues itself, a caller
responsibility per the spec) returns none for every fuel value. -/
def drain (f : Str → List Str) : Nat → List Str → List Str → Option (List Str)
  | _, done, [] => some done
  | 0, _, _ :: _ => none
  | fuel + 1, done, l :: rest => drain f fuel (done ++ [l]) (rest ++ f l)

/-- process() at the queue level: drain the pending stack to exhaustion, then
clear it (line 1599). Returns the processed lines in order and the final
pending stack. -/
def processQueue (f : Str → List Str) (fuel : Nat) (q : List Str) :
    Option (List Str × List Str) :=
  (drain f fuel [] q).map (fun done => (done, ([] : List Str)))

/-! ## Unit constants and external text converters

These live in the tools modules (tools.aero, tools.misc), which are outside
src/; they are modelled from the spec. -/

/-- Modelled from the spec: knots to the internal speed unit (metres per
second), the conversion applied by the spd coercion. -/
def kts : ℚ := 514444 / 1000000

/-- Modelled from the spec: feet to the internal altitude unit (metres). -/
def ft : ℚ := 3048 / 10000

/-- Modelled from the spec: feet per minute to the internal rate unit. -/
def fpm : ℚ := ft / 60

/-- Modelled from the spec: txt2lat from the tools module accepts signed
decimal degrees (the hemisphere-letter and DMS literals of the spec are not
needed by any claim and are not modelled); failure raises. -/
def txt2lat (tok : Str) : Option ℚ := pyFloat tok

/-- Modelled from the spec: txt2lon, as txt2lat. -/
def txt2lon (tok : Str) : Option ℚ := pyFloat tok

/-- Modelled from the spec: txt2alt accepts a flight-level token (FL prefix,
value times one hundred feet) or a plain feet value; failure raises. -/
def txt2alt (tok : Str) : Option ℚ :=
  if tok.take 2 = "FL".toList then (pyFloat (tok.drop 2)).map (· * 100)
  else pyFloat tok

/-- Modelled from the spec: the id-lookup collaborator resolves an
identifier to its index in the roster, minus one when absent. -/
def id2idxGo (a : Str) : List Str → Int → Int
  | [], _ => -1
  | x :: xs, n => if x = a then n else id2idxGo a xs (n + 1)

/-- traf.id2idx as consumed by the dispatcher. -/
def id2idx (ids : List Str) (a : Str) : Int := id2idxGo a ids 0

/-- list.count of the Python roster list, used by the implicit POS check. -/
def countOcc (ids : List Str) (a : Str) : Nat := (ids.filter (fun x => x == a)).length

/-! ## The command registry (lines 40-208) -/

/-- First-match lookup in an association list; the Python dict of the source
has unique keys, so this agrees with dict lookup. -/
def lookupA {α : Type} : List (Str × α) → Str → Option α
  | [], _ => none
  | (k, v) :: r, c => if k = c then some v else lookupA r c

/-- The command dictionary of lines 40-190: canonical name, help text and
argument-type list; the handler is identified by the canonical name, its
behaviour being external (sim, traf, scr methods). -/
def cmddict : List (Str × (Str × Str)) :=
  [ ("ADDNODES".toList, (("ADDNODES number").toList, ("int").toList)),
    ("ALT".toList, (("ALT acid, alt, [vspd]").toList, ("acid,alt,[vspd]").toList)),
    ("BATCH".toList, (("BATCH filename").toList, ("txt").toList)),
    ("CRE".toList, (("CRE acid,type,lat,lon,hdg,alt,spd").toList, ("txt,txt,lat,lon,hdg,alt,spd").toList)),
    ("DATAFEED".toList, (("DATAFEED [ON/OFF]").toList, ("[onoff]").toList)),
    ("DT".toList, (("DT dt").toList, ("float").toList)),
    ("DTMULT".toList, (("DTMULT multiplier").toList, ("float").toList)),
    ("ECHO".toList, (("ECHO txt").toList, ("txt").toList)),
    ("ENG".toList, (("ENG acid,[engine_id]").toList, ("acid,[txt]").toList)),
    ("FF".toList, (("FF [tend]").toList, ("[time]").toList)),
    ("FIXDT".toList, (("FIXDT ON/OFF [tend]").toList, ("onoff,[time]").toList)),
    ("HDG".toList, (("HDG acid,hdg (deg,True)").toList, ("acid,float").toList)),
    ("HELP".toList, (("HELP [command]").toList, ("[txt]").toList)),
    ("HOLD".toList, (("HOLD").toList, ("").toList)),
    ("INSEDIT".toList, (("INSEDIT txt").toList, ("txt").toList)),
    ("LOG".toList, (("LOG acid/area/*,dt").toList, ("txt,float").toList)),
    ("MCRE".toList, (("MCRE n, [type/*, alt/*, spd/*, dest/*]").toList, ("int,[txt,alt,spd,txt]").toList)),
    ("MOVE".toList, (("MOVE acid,lat,lon,[alt,hdg,spd,vspd]").toList, ("acid,lat,lon,[alt,hdg,spd,vspd]").toList)),
    ("ND".toList, (("ND acid").toList, ("txt").toList)),
    ("NOISE".toList, (("NOISE [ON/OFF]").toList, ("[onoff]").toList)),
    ("NOM".toList, (("NOM acid").toList, ("acid").toList)),
    ("OP".toList, (("OP").toList, ("").toList)),
    ("PCALL".toList, (("PCALL filename [REL/ABS]").toList, ("txt,[txt]").toList)),
    ("RESET".toList, (("RESET").toList, ("").toList)),
    ("SCEN".toList, (("SCEN scenname").toList, ("txt").toList)),
    ("SEED".toList, (("SEED value").toList, ("int").toList)),
    ("SPD".toList, (("SPD acid,spd (CAS-kts/Mach)").toList, ("acid,spd").toList)),
    ("SSD".toList, (("SSD acid/ALL/OFF").toList, ("txt").toList)),
    ("STOP".toList, (("STOP").toList, ("").toList)),
    ("SYMBOL".toList, (("SYMBOL").toList, ("").toList)),
    ("VS".toList, (("VS acid,vspd (ft/min)").toList, ("acid,vspd").toList)) ]

/-- The synonym dictionary of lines 194-208. -/
def cmdsynon : List (Str × Str) :=
  [ ("CONTINUE".toList, ("OP").toList),
    ("CREATE".toList, ("CRE").toList),
    ("DTLOOK".toList, ("ASA_DTLOOK").toList),
    ("END".toList, ("STOP").toList),
    ("EXIT".toList, ("STOP").toList),
    ("FWD".toList, ("FF").toList),
    ("PAUSE".toList, ("HOLD").toList),
    ("Q".toList, ("STOP").toList),
    ("QUIT".toList, ("STOP").toList),
    ("RUN".toList, ("OP").toList),
    ("START".toList, ("OP").toList),
    ("TURN".toList, ("HDG").toList),
    ("?".toList, ("HELP").toList) ]

/-- The splitting of the argument-type string done at lines 487-503: split
on the opening bracket; the part before it, stripped of commas and split on
commas, is the mandatory prefix (empty when it is the single empty field);
exactly two parts add the bracketed tail, stripped of the closing bracket
and split on commas, as the optional suffix. Returns the mandatory prefix
and the full list. -/
def parseArgTypes (sig : Str) : List Str × List Str :=
  let parts := splitOnChar '[' sig
  let m0 := splitOnChar ',' (stripChars [','] (parts.headD []))
  let mand := if m0 = [[]] then [] else m0
  match parts with
  | [_, p2] => (mand, mand ++ splitOnChar ',' (stripChars [']'] p2))
  | _ => (mand, mand)

/-! ## The dispatcher (process, lines 448-1600) -/

/-- A coerced argument value as passed to a handler. -/
inductive Val where
  | vnone
  | vint (n : Int)
  | vfloat (q : ℚ)
  | vstr (s : Str)
  | vbool (b : Bool)
  deriving DecidableEq

/-- An observable effect of processing one line: a screen echo, a handler
invocation with its coerced arguments, entry into one of the built-in
command branches (whose bodies act only on external collaborators), a
dispatch to an extension module, or an unhandled dynamic error. -/
inductive Event where
  | echo (s : Str)
  | call (name : Str) (vals : List Val)
  | builtin (name : Str)
  | extref (key : Str) (rest : Str) (toks : List Str)
  | crash
  deriving DecidableEq

/-- The shapes a handler may return: nothing, a bare flag, or a sequence
whose first element is a flag and whose optional second element is a
message (lines 603-619). -/
inductive HandlerRes where
  | rNone
  | rBool (b : Bool)
  | rTuple (flag : Bool) (msg : Option Str)

/-- External handler behaviour: what the collaborator method registered
under a canonical name returns for given coerced arguments. -/
abbrev HandlerB := Str → List Val → HandlerRes

/-- Handler behaviour that returns nothing, the common case. -/
def hbNone : HandlerB := fun _ _ => HandlerRes.rNone

/-- Outcome of one iteration of the coercion loop of lines 516-585:
append values and continue; mark a syntax error and continue (the inner
try of the lat and lon tags); echo, mark and break (unknown aircraft id);
or raise out to the outer except (every other parse failure). -/
inductive StepRes where
  | ok (vs : List Val)
  | syn
  | brk (ev : Event)
  | thr
  deriving DecidableEq

/-- The body of the coercion loop for one declared tag and one token
(lines 517-585): the wildcard check precedes every tag. -/
def coStep (ids : List Str) (cmd ty0 tok : Str) : StepRes :=
  let ty := pyStrip ty0
  if tok = [] ∨ tok = "*".toList then .ok [.vnone]
  else if ty = "acid".toList then
    let idx := id2idx ids tok
    if idx < 0 then .brk (.echo (cmd ++ ":".toList ++ tok ++ (" not found").toList))
    else .ok [.vint idx]
  else if ty = "txt".toList then .ok [.vstr tok]
  else if ty = "float".toList then
    match pyFloat tok with
    | some q => .ok [.vfloat q]
    | none => .thr
  else if ty = "int".toList then
    match pyInt tok with
    | some n => .ok [.vint n]
    | none => .thr
  else if ty = "onoff".toList ∨ ty = "bool".toList then
    .ok [.vbool (tok == "ON".toList || tok == "1".toList || tok == "TRUE".toList)]
  else if ty = "lat".toList then
    match txt2lat tok with
    | some q => .ok [.vfloat q]
    | none => .syn
  else if ty = "lon".toList then
    match txt2lon tok with
    | some q => .ok [.vfloat q]
    | none => .syn
  else if ty = "spd".toList then
    match pyFloat (collapseDD (replaceChar 'M' '.' (pyUpper tok))) with
    | some v => .ok [.vfloat (if ¬((1 : ℚ)/10 < v ∧ v < 1) then v * kts else v)]
    | none => .thr
  else if ty = "vspd".toList then
    match pyFloat tok with
    | some v => .ok [.vfloat (fpm * v)]
    | none => .thr
  else if ty = "alt".toList then
    match txt2alt tok with
    | some v => .ok [.vfloat (ft * v)]
    | none => .thr
  else if ty = "hdg".toList then
    match pyFloat (removeChar 'M' (removeChar 'T' (pyUpper tok))) with
    | some v => .ok [.vfloat v]
    | none => .thr
  else if ty = "time".toList then
    let ttxt := splitOnChar ':' (pyStrip tok)
    if 3 ≤ ttxt.length then
      match pyInt (ttxt.getD 0 []), pyInt (ttxt.getD 1 []), pyFloat (ttxt.getD 2 []) with
      | some ihr, some imin, some xsec =>
        .ok [.vfloat ((ihr : ℚ) * 3600 + (imin : ℚ) * 60 + xsec)]
      | _, _, _ => .thr
    else
      match pyFloat tok with
      | some v => .ok [.vfloat v]
      | none => .thr
  else .ok []

/-- State of the coercion loop: the argument list built so far, the syntax
error flag, echoes emitted inside the loop, whether an exception escaped to
the outer except, and the last value of the loop index (referenced again at
line 606). -/
structure CoOut where
  arglist : List Val
  synerr : Bool
  events : List Event
  threw : Bool
  lastI : Option Nat
  deriving DecidableEq

/-- The initial loop state. -/
def coInit : CoOut := ⟨[], false, [], false, none⟩

/-- The coercion loop over the zipped prefix of declared tags and supplied
tokens (range over the minimum of the two lengths, line 516). -/
def coLoop (ids : List Str) (cmd : Str) : List (Str × Str) → Nat → CoOut → CoOut
  | [], _, st => st
  | (ty, tok) :: rest, i, st =>
    let st1 : CoOut := { st with lastI := some i }
    match coStep ids cmd ty tok with
    | .ok vs => coLoop ids cmd rest (i + 1) { st1 with arglist := st1.arglist ++ vs }
    | .syn => coLoop ids cmd rest (i + 1) { st1 with synerr := true }
    | .brk ev => { st1 with events := st1.events ++ [ev], synerr := true }
    | .thr => { st1 with threw := true }

/-- The result protocol of lines 600-622 followed by the trailing check of
lines 1593-1595, given the handler result, the syntax-error flag as it
stands after the loop and the outer except. A bare false flag echoes the
usage (plain when no arguments were given or the last examined token was a
question mark) and then clears the flag; a sequence result takes its flag
from the first element, and a present second element is echoed and clears
the flag; a still-set flag falls through to the final syntax-error echoes.
When the flag is set before the protocol runs (unknown aircraft id), the
protocol is skipped in favour of the usage echo of line 622. A bare false
flag examined when the loop index was never bound raises the NameError of
the untried lookup at line 606, modelled as a crash event. -/
def protoEvents (res : HandlerRes) (line cmd : Str) (args : List Str)
    (help : Str) (lastI : Option Nat) (synerr0 : Bool) : List Event :=
  if synerr0 then
    [Event.echo (("Syntax error: ").toList ++ help),
     Event.echo (("Syntax error in command:").toList ++ cmd), Event.echo line]
  else
    match res with
    | .rNone => []
    | .rBool b =>
      if b then []
      else if args.length = 0 then [Event.echo help]
      else
        match lastI with
        | some i =>
          if args.getD i [] = "?".toList then [Event.echo help]
          else [Event.echo (("Syntax error: ").toList ++ help)]
        | none => [Event.crash]
    | .rTuple flag msg =>
      match msg with
      | some m => [Event.echo (cmd ++ ":".toList ++ m)]
      | none =>
        if flag then []
        else [Event.echo (("Syntax error in command:").toList ++ cmd), Event.echo line]

/-- The dictionary branch of lines 485-622: check the mandatory-argument
count; a single-txt signature captures the raw remainder of the line past
the command name, every other signature runs the coercion loop over the
upper-cased tokens; a caught coercion failure echoes the generic message,
the line and the usage, after which the handler is still invoked with the
argument list built so far; finally the handler result is interpreted. -/
def runDict (hb : HandlerB) (ids : List Str) (line cmd : Str) (args : List Str)
    (help sig : Str) : List Event :=
  let pr := parseArgTypes sig
  if args.length < pr.1.length then
    [Event.echo (("Syntax error: Too few arguments").toList),
     Event.echo line, Event.echo help]
  else if pr.2 = [("txt").toList] then
    let arglist := [Val.vstr (line.drop (cmd.length + 1))]
    Event.call cmd arglist :: protoEvents (hb cmd arglist) line cmd args help none false
  else
    let st := coLoop ids cmd (pr.2.zip args) 0 coInit
    let synerr0 := if st.threw then false else st.synerr
    st.events
      ++ (if st.threw then
            [Event.echo (("Syntax error in processing arguments").toList),
             Event.echo line, Event.echo help]
          else [])
      ++ [Event.call cmd st.arglist]
      ++ protoEvents (hb cmd st.arglist) line cmd args help st.lastI synerr0

/-- The chain of built-in branches of lines 627-1586 tried after a
dictionary miss, in source order; their bodies act only on the external
collaborators and are recorded as events. The final branch is the
unknown-command report of lines 1582-1586. -/
def builtinChain (cmd : Str) (args : List Str) : List Event :=
  if cmd = "POS".toList ∨ cmd = "?".toList then [Event.builtin cmd]
  else if cmd = "DEL".toList then [Event.builtin cmd]
  else if cmd = "DEST".toList ∨ cmd = "ORIG".toList then [Event.builtin cmd]
  else if cmd.take 4 = "ZOOM".toList ∨ cmd.headD ' ' = '+' ∨ cmd.headD ' ' = '='
      ∨ cmd.headD ' ' = '-' then [Event.builtin (("ZOOM").toList)]
  else if cmd.take 4 = "PAN".toList then [Event.builtin (("PAN").toList)]
  else if cmd = "IC".toList then [Event.builtin cmd]
  else if cmd = "SAVEIC".toList then [Event.builtin cmd]
  else if cmd.take 6 = "METRIC".toList then [Event.builtin (("METRIC").toList)]
  else if cmd = "AREA".toList then [Event.builtin cmd]
  else if cmd = "TAXI".toList then [Event.builtin cmd]
  else if cmd = "SWRAD".toList ∨ cmd.take 4 = "DISP".toList then
    [Event.builtin (("SWRAD").toList)]
  else if cmd.take 5 = "TRAIL".toList then [Event.builtin (("TRAIL").toList)]
  else if cmd.take 4 = "DIST".toList then [Event.builtin (("DIST").toList)]
  else if cmd.take 4 = "CALC".toList then [Event.builtin (("CALC").toList)]
  else if cmd = "LNAV".toList then [Event.builtin cmd]
  else if cmd = "VNAV".toList then [Event.builtin cmd]
  else if cmd = "ASAS".toList then [Event.builtin cmd]
  else if cmd = "ADDWPT".toList then [Event.builtin cmd]
  else if cmd = "DELWPT".toList then [Event.builtin cmd]
  else if cmd = "DIRECT".toList then [Event.builtin cmd]
  else if cmd = "LISTRTE".toList then [Event.builtin cmd]
  else if cmd = "ADSBCOVERAGE".toList then [Event.builtin cmd]
  else if cmd = "BOX".toList then [Event.builtin cmd]
  else if cmd.take 4 = "POLY".toList then [Event.builtin (("POLY").toList)]
  else if cmd = "CIRCLE".toList then [Event.builtin cmd]
  else if cmd.take 4 = "LINE".toList then [Event.builtin (("LINE").toList)]
  else if cmd.take 7 = "DUMPRTE".toList then [Event.builtin (("DUMPRTE").toList)]
  else if cmd.take 3 = "XXX".toList then [Event.builtin (("XXX").toList)]
  else if cmd.take 4 = "SYN_".toList ∨ cmd.take 4 = "ASA_".toList then
    [Event.extref (cmd.take 4) (cmd.drop 4) (cmd :: args)]
  else if args.length = 0 then
    [Event.echo (("Unknown command or aircraft: ").toList ++ cmd)]
  else
    [Event.echo (("Unknown command: ").toList ++ cmd)]

/-- Dispatch one resolved command: the dictionary first (line 485), then
the built-in chain. -/
def dispatch (hb : HandlerB) (ids : List Str) (line cmd : Str)
    (args : List Str) : List Event :=
  match lookupA cmddict cmd with
  | some p => runDict hb ids line cmd args p.1 p.2
  | none => builtinChain cmd args

/-- Modelled from the spec: cmdsplit from the tools module splits a line
into the command name (the text before the first space) and argument
tokens (the remainder split on spaces, and each piece further on commas,
so that consecutive commas yield empty tokens). The roster parameter
supports a switched id-and-command check the spec does not specify; it is
not used here (the implicit-POS check of line 463 is modelled separately in
resolveCmd). -/
def cmdsplit (line : Str) (ids : List Str) : Str × List Str :=
  let s := pyStrip line
  let c := s.takeWhile (fun ch => !(ch == ' '))
  let rest := pyStrip (s.dropWhile (fun ch => !(ch == ' ')))
  let args :=
    if rest = [] then []
    else (((splitOnChar ' ' rest).filter (fun w => !(w == []))).map
      (splitOnChar ',')).flatten
  (c, args)

/-- Name and argument resolution of lines 457-483: split the upper-cased
line, synthesise the implicit POS command when a bare token is a known
aircraft id, then apply one synonym hop. -/
def resolveCmd (ids : List Str) (line : Str) : Str × List Str :=
  let p := cmdsplit (pyUpper line) ids
  let q := if p.2.length = 0 ∧ 0 < countOcc ids p.1 then (("POS").toList, [p.1]) else p
  ((lookupA cmdsynon q.1).getD q.1, q.2)

/-- The body of the for loop of process for one stacked line (lines
451-1595): strip it, skip it when empty, resolve name and arguments, and
dispatch. -/
def processLine (hb : HandlerB) (ids : List Str) (rawline : Str) : List Event :=
  let line := pyStrip rawline
  if line = [] then []
  else
    let r := resolveCmd ids line
    dispatch hb ids line r.1 r.2

/-- The event trace of processing a list of stacked lines in order; one
line never prevents the following lines from being processed. -/
def processLines (hb : HandlerB) (ids : List Str) : List Str → List Event
  | [] => []
  | l :: rest => processLine hb ids l ++ processLines hb ids rest

/-- A resolved command name that matches none of the built-in branch guards
of lines 627-1577: each conjunct is the negation of one guard, in source
order. -/
def noBuiltin (cmd : Str) : Prop :=
  ¬(cmd = "POS".toList ∨ cmd = "?".toList)
  ∧ ¬(cmd = "DEL".toList)
  ∧ ¬(cmd = "DEST".toList ∨ cmd = "ORIG".toList)
  ∧ ¬(cmd.take 4 = "ZOOM".toList ∨ cmd.headD ' ' = '+' ∨ cmd.headD ' ' = '='
        ∨ cmd.headD ' ' = '-')
  ∧ ¬(cmd.take 4 = "PAN".toList)
  ∧ ¬(cmd = "IC".toList)
  ∧ ¬(cmd = "SAVEIC".toList)
  ∧ ¬(cmd.take 6 = "METRIC".toList)
  ∧ ¬(cmd = "AREA".toList)
  ∧ ¬(cmd = "TAXI".toList)
  ∧ ¬(cmd = "SWRAD".toList ∨ cmd.take 4 = "DISP".toList)
  ∧ ¬(cmd.take 5 = "TRAIL".toList)
  ∧ ¬(cmd.take 4 = "DIST".toList)
  ∧ ¬(cmd.take 4 = "CALC".toList)
  ∧ ¬(cmd = "LNAV".toList)
  ∧ ¬(cmd = "VNAV".toList)
  ∧ ¬(cmd = "ASAS".toList)
  ∧ ¬(cmd = "ADDWPT".toList)
  ∧ ¬(cmd = "DELWPT".toList)
  ∧ ¬(cmd = "DIRECT".toList)
  ∧ ¬(cmd = "LISTRTE".toList)
  ∧ ¬(cmd = "ADSBCOVERAGE".toList)
  ∧ ¬(cmd = "BOX".toList)
  ∧ ¬(cmd.take 4 = "POLY".toList)
  ∧ ¬(cmd = "CIRCLE".toList)
  ∧ ¬(cmd.take 4 = "LINE".toList)
  ∧ ¬(cmd.take 7 = "DUMPRTE".toList)
  ∧ ¬(cmd.take 3 = "XXX".toList)
  ∧ ¬(cmd.take 4 = "SYN_".toList ∨ cmd.take 4 = "ASA_".toList)

/-- Two scenario lines whose timestamps decrease, as read from a file. -/
def demoLines : List Str :=
  [("00:00:05.00>CMDA\n").toList, ("00:00:00.00>CMDB\n").toList]

/-- A file whose only kept line is malformed: long enough to survive the
length filter, no comment marker, but no timestamp delimiter. -/
def badLines : List Str := [("xxxxxxxxxxxxxxx").toList]

/-! ## Helper lemmas -/

attribute [local semireducible] Rat.add Rat.mul Rat.inv Rat.sub

theorem openfileCore_false (old : List (ℚ × Str)) (lines : List Str) (toff : ℚ) :
    openfileCore old lines toff false = (parseLoop toff (prefilter lines) [], true) := rfl

theorem openfileCore_true (old : List (ℚ × Str)) (lines : List Str) (toff : ℚ) :
    openfileCore old lines toff true
      = (if parseLoop toff (prefilter lines) old = [] then ([], false)
         else (sortByTime (parseLoop toff (prefilter lines) old), true)) := rfl

theorem mem_insEntry (e y : ℚ × Str) (l : List (ℚ × Str)) :
    y ∈ insEntry e l ↔ y = e ∨ y ∈ l := by
  induction l with
  | nil => simp [insEntry]
  | cons x xs ih =>
    by_cases h : x.1 ≤ e.1
    · rw [insEntry, if_pos h]
      simp only [List.mem_cons, ih]
      tauto
    · rw [insEntry, if_neg h]
      simp only [List.mem_cons]
      try tauto

theorem pairwise_insEntry (e : ℚ × Str) (l : List (ℚ × Str))
    (h : l.Pairwise (fun a b => a.1 ≤ b.1)) :
    (insEntry e l).Pairwise (fun a b => a.1 ≤ b.1) := by
  induction l with
  | nil => simp [insEntry]
  | cons x xs ih =>
    rw [List.pairwise_cons] at h
    obtain ⟨hx, hxs⟩ := h
    by_cases hle : x.1 ≤ e.1
    · rw [insEntry, if_pos hle, List.pairwise_cons]
      refine ⟨?_, ih hxs⟩
      intro y hy
      rcases (mem_insEntry e y xs).1 hy with rfl | hy'
      · exact hle
      · exact hx y hy'
    · rw [insEntry, if_neg hle, List.pairwise_cons]
      refine ⟨?_, List.pairwise_cons.2 ⟨hx, hxs⟩⟩
      intro y hy
      rcases List.mem_cons.1 hy with rfl | hy'
      · exact le_of_lt (lt_of_not_le hle)
      · exact le_trans (le_of_lt (lt_of_not_le hle)) (hx y hy')

theorem pairwise_sortfold (l : List (ℚ × Str)) :
    ∀ acc, acc.Pairwise (fun a b => a.1 ≤ b.1) →
      (l.foldl (fun a e => insEntry e a) acc).Pairwise (fun a b => a.1 ≤ b.1) := by
  induction l with
  | nil => intro acc h; simpa using h
  | cons e rest ih =>
    intro acc h
    rw [List.foldl_cons]
    exact ih _ (pairwise_insEntry e acc h)

theorem filter_none_of_lt (t : ℚ) (l : List (ℚ × Str)) (h : ∀ y ∈ l, t < y.1) :
    l.filter (fun x => decide (x.1 = t)) = [] := by
  induction l with
  | nil => rfl
  | cons x xs ih =>
    have hne : ¬(x.1 = t) := ne_of_gt (h x (List.mem_cons_self x xs))
    rw [List.filter_cons, if_neg (by simpa using hne)]
    exact ih (fun y hy => h y (List.mem_cons_of_mem x hy))

theorem filter_insEntry (e : ℚ × Str) (l : List (ℚ × Str)) (t : ℚ)
    (hl : l.Pairwise (fun a b => a.1 ≤ b.1)) :
    (insEntry e l).filter (fun x => decide (x.1 = t))
      = l.filter (fun x => decide (x.1 = t)) ++ (if e.1 = t then [e] else []) := by
  induction l with
  | nil =>
    by_cases he : e.1 = t <;> simp [insEntry, List.filter_cons, he]
  | cons x xs ih =>
    rw [List.pairwise_cons] at hl
    obtain ⟨hx, hxs⟩ := hl
    by_cases hle : x.1 ≤ e.1
    · rw [insEntry, if_pos hle, List.filter_cons, List.filter_cons, ih hxs]
      by_cases hxt : x.1 = t
      · simp [hxt]
      · simp [hxt]
    · rw [insEntry, if_neg hle]
      by_cases he : e.1 = t
      · have hnil : (x :: xs).filter (fun x => decide (x.1 = t)) = [] := by
          apply filter_none_of_lt
          intro y hy
          rcases List.mem_cons.1 hy with rfl | hy'
          · exact he ▸ lt_of_not_le hle
          · exact lt_of_lt_of_le (he ▸ lt_of_not_le hle) (hx y hy')
        rw [List.filter_cons, hnil]
        simp [he]
      · rw [List.filter_cons]
        simp [he]

theorem filter_sortfold (t : ℚ) (l : List (ℚ × Str)) :
    ∀ acc, acc.Pairwise (fun a b => a.1 ≤ b.1) →
      (l.foldl (fun a e => insEntry e a) acc).filter (fun x => decide (x.1 = t))
        = acc.filter (fun x => decide (x.1 = t))
          ++ l.filter (fun x => decide (x.1 = t)) := by
  induction l with
  | nil => intro acc _; simp
  | cons e rest ih =>
    intro acc h
    rw [List.foldl_cons, ih _ (pairwise_insEntry e acc h), filter_insEntry e acc t h,
      List.filter_cons]
    by_cases he : e.1 = t
    · simp [he]
    · simp [he]

theorem parseLoop_append (toff : ℚ) (lines : List Str) :
    ∀ acc, parseLoop toff lines acc = acc ++ parseLoop toff lines [] := by
  induction lines with
  | nil => intro acc; simp [parseLoop]
  | cons l rest ih =>
    intro acc
    cases h : scanLine toff l with
    | none => simp only [parseLoop, h]; exact ih acc
    | some e =>
      simp only [parseLoop, h]
      rw [ih (acc ++ [e]), ih ([] ++ [e])]
      simp

theorem parseLoop_filterMap (toff : ℚ) (lines : List Str) :
    parseLoop toff lines [] = lines.filterMap (scanLine toff) := by
  induction lines with
  | nil => rfl
  | cons l rest ih =>
    cases h : scanLine toff l with
    | none => simp only [parseLoop, h, List.filterMap_cons]; exact ih
    | some e =>
      simp only [parseLoop, h, List.filterMap_cons]
      rw [parseLoop_append toff rest ([] ++ [e])]
      simp [ih]

theorem drain_inv (f : Str → List Str) (q : List Str) :
    ∀ (fuel : Nat) (done rem out : List Str),
      done ++ rem = q ++ (done.map f).flatten →
      drain f fuel done rem = some out →
      out = q ++ (out.map f).flatten := by
  intro fuel
  induction fuel with
  | zero =>
    intro done rem out hinv hd
    cases rem with
    | nil =>
      simp only [drain, Option.some.injEq] at hd
      subst hd
      simpa using hinv
    | cons l rest => simp [drain] at hd
  | succ n ih =>
    intro done rem out hinv hd
    cases rem with
    | nil =>
      simp only [drain, Option.some.injEq] at hd
      subst hd
      simpa using hinv
    | cons l rest =>
      simp only [drain] at hd
      refine ih (done ++ [l]) (rest ++ f l) out ?_ hd
      calc (done ++ [l]) ++ (rest ++ f l)
          = (done ++ l :: rest) ++ f l := by simp
        _ = (q ++ (done.map f).flatten) ++ f l := by rw [hinv]
        _ = q ++ (((done ++ [l]).map f).flatten) := by simp

/-! ## Claim theorems -/

/-- C5: one drain pass of process: every line in the pending queue at entry,
plus every line appended to it during the pass, is processed in first-in
first-out order before the call returns (the processed sequence is the
initial queue followed exactly by the lines the processed lines appended),
and the pending queue is empty when process returns. -/
theorem process_drains_all (f : Str → List Str) (fuel : Nat)
    (q done fin : List Str)
    (h : processQueue f fuel q = some (done, fin)) :
    done = q ++ (done.map f).flatten ∧ fin = [] := by
  unfold processQueue at h
  cases hd : drain f fuel [] q with
  | none => rw [hd] at h; simp at h
  | some d =>
    rw [hd] at h
    simp only [Option.map_some', Option.some.injEq, Prod.mk.injEq] at h
    obtain ⟨rfl, rfl⟩ := h
    exact ⟨drain_inv f q fuel [] q d (by simp) hd, rfl⟩

/-- C5 witness: a concrete pass in which processing the line A appends the
line B; both are processed and the queue ends empty. -/
theorem process_drains_all_wit :
    (processQueue (fun l => if l = "A".toList then [("B").toList] else []) 3
        [("A").toList] = some ([("A").toList, ("B").toList], []))
    ∧ ([("A").toList, ("B").toList]
        = [("A").toList]
          ++ (([("A").toList, ("B").toList]).map
              (fun l => if l = "A".toList then [("B").toList] else [])).flatten) := by
  refine ⟨by decide, ?_⟩
  exact (process_drains_all (fun l => if l = "A".toList then [("B").toList] else [])
    3 [("A").toList] [("A").toList, ("B").toList] [] (by decide)).1

/-- C3: openfile with merge true leaves the timeline stably sorted by
trigger time: the resulting timeline is pairwise non-decreasing in trigger
time and, for every time value, the entries carrying that value appear in
exactly the order they had in the concatenated input (the existing timeline
followed by the newly accepted lines). -/
theorem openfile_merge_sorted_stable (old : List (ℚ × Str)) (lines : List Str)
    (toff : ℚ) :
    ((openfileCore old lines toff true).1).Pairwise (fun a b => a.1 ≤ b.1)
    ∧ (∀ t : ℚ, ((openfileCore old lines toff true).1).filter (fun x => decide (x.1 = t))
        = (parseLoop toff (prefilter lines) old).filter (fun x => decide (x.1 = t)))
    ∧ parseLoop toff (prefilter lines) old
        = old ++ (prefilter lines).filterMap (scanLine toff) := by
  have hconc : parseLoop toff (prefilter lines) old
      = old ++ (prefilter lines).filterMap (scanLine toff) := by
    rw [parseLoop_append, parseLoop_filterMap]
  by_cases hnil : parseLoop toff (prefilter lines) old = []
  · refine ⟨?_, ?_, hconc⟩
    · rw [openfileCore_true, if_pos hnil]
      exact List.Pairwise.nil
    · intro t
      rw [openfileCore_true, if_pos hnil, hnil]
  · refine ⟨?_, ?_, hconc⟩
    · rw [openfileCore_true, if_neg hnil]
      exact pairwise_sortfold _ [] (List.Pairwise.nil)
    · intro t
      rw [openfileCore_true, if_neg hnil]
      exact filter_sortfold t _ [] (List.Pairwise.nil)

/-- C7 (the code at the failing input): a merge load whose only kept line is
malformed skips the line (scanLine rejects it) and then dies in the merge
step, while the same file loads fine without merge. -/
theorem openfile_merge_empty_fails :
    openfileCore [] badLines 0 true = ([], false)
    ∧ openfileCore [] badLines 0 false = ([], true)
    ∧ scanLine 0 (("xxxxxxxxxxxxxxx").toList) = none := by
  refine ⟨by decide, by decide, by decide⟩

/-- C10: openfile with merge false replaces the timeline by exactly the
accepted lines in their original file order with no sorting (the result is
the filterMap of the accepted parses over the kept lines), and a concrete
file with decreasing timestamps yields a timeline that is not sorted by
trigger time. -/
theorem openfile_nomerge_order :
    (∀ (old : List (ℚ × Str)) (lines : List Str) (toff : ℚ),
        (openfileCore old lines toff false).1
          = (prefilter lines).filterMap (scanLine toff))
    ∧ (openfileCore [] demoLines 0 false).1
        = [(5, ("CMDA").toList), (0, ("CMDB").toList)]
    ∧ ¬ ((openfileCore [] demoLines 0 false).1).Pairwise (fun a b => a.1 ≤ b.1) := by
  refine ⟨?_, by decide, by decide⟩
  intro old lines toff
  rw [openfileCore_false]
  exact parseLoop_filterMap toff (prefilter lines)

/-- The double-cons unfolding of checkfile. -/
theorem checkfile_cons (simt t : ℚ) (ts : List ℚ) (c : Str) (cs stk : List Str) :
    checkfile simt (t :: ts) (c :: cs) stk
      = if t ≤ simt then checkfile simt ts cs (stackCmd stk c)
        else (t :: ts, c :: cs, stk) := rfl

/-- The empty-timeline unfolding of checkfile. -/
theorem checkfile_nil (simt : ℚ) (cs stk : List Str) :
    checkfile simt [] cs stk = ([], cs, stk) := rfl

/-- C1 counterexample: on an unsorted timeline (reachable, since a non-merge
load never sorts, see the C10 theorem) checkfile at time zero removes
nothing, because the head entry is not yet due, yet the second entry has
trigger time zero, which is not greater than the tick time; the claimed
postcondition fails. -/
theorem checkfile_unsorted_cex :
    checkfile 0 [5, 0] [("CMDA").toList, ("CMDB").toList] []
      = ([(5:ℚ), 0], [("CMDA").toList, ("CMDB").toList], [])
    ∧ (0:ℚ) ∈ (checkfile 0 [5, 0] [("CMDA").toList, ("CMDB").toList] []).1
    ∧ ¬((0:ℚ) < 0) := by
  refine ⟨by decide, by decide, by decide⟩

/-- C1 (amended): on a timeline sorted by trigger time (non-decreasing, the
state the merge path maintains), a tick removes exactly the leading entries
whose trigger time has been reached, in ascending order, appending each
released command to the pending stack through the stack method (which
strips it, splits it on semicolons and drops an empty line); every released
trigger time lies at or below the tick time and every remaining entry has
trigger time strictly above it. -/
theorem checkfile_release_sorted (simt : ℚ) :
    ∀ (ts : List ℚ) (cs stk : List Str),
      ts.Pairwise (· ≤ ·) → ts.length = cs.length →
      checkfile simt ts cs stk
        = (ts.drop ((ts.takeWhile (fun t => decide (t ≤ simt))).length),
           cs.drop ((ts.takeWhile (fun t => decide (t ≤ simt))).length),
           (cs.take ((ts.takeWhile (fun t => decide (t ≤ simt))).length)).foldl
             stackCmd stk)
      ∧ (∀ t ∈ ts.takeWhile (fun t => decide (t ≤ simt)), t ≤ simt)
      ∧ (∀ t ∈ ts.drop ((ts.takeWhile (fun t => decide (t ≤ simt))).length),
          simt < t) := by
  intro ts
  induction ts with
  | nil =>
    intro cs stk _ _
    refine ⟨?_, ?_, ?_⟩
    · simp [checkfile_nil]
    · simp
    · simp
  | cons t ts ih =>
    intro cs stk hs hlen
    cases cs with
    | nil => simp at hlen
    | cons c cs =>
      rw [List.pairwise_cons] at hs
      obtain ⟨hhead, htail⟩ := hs
      by_cases hts : t ≤ simt
      · have htw : (t :: ts).takeWhile (fun t => decide (t ≤ simt))
            = t :: ts.takeWhile (fun t => decide (t ≤ simt)) := by
          rw [List.takeWhile_cons, if_pos (by simpa using hts)]
        obtain ⟨ih1, ih2, ih3⟩ := ih cs (stackCmd stk c) htail (by simpa using hlen)
        refine ⟨?_, ?_, ?_⟩
        · rw [htw]
          simp only [List.length_cons, List.drop_succ_cons, List.take_succ_cons,
            List.foldl_cons]
          rw [checkfile_cons, if_pos hts]
          exact ih1
        · rw [htw]
          intro x hx
          rcases List.mem_cons.1 hx with rfl | hx'
          · exact hts
          · exact ih2 x hx'
        · rw [htw]
          simp only [List.length_cons, List.drop_succ_cons]
          exact ih3
      · have htw : (t :: ts).takeWhile (fun t => decide (t ≤ simt)) = [] := by
          rw [List.takeWhile_cons, if_neg (by simpa using hts)]
        refine ⟨?_, ?_, ?_⟩
        · rw [htw]
          simp only [List.length_nil, List.drop_zero, List.take_zero, List.foldl_nil]
          rw [checkfile_cons, if_neg hts]
        · rw [htw]
          intro x hx
          simp at hx
        · rw [htw]
          simp only [List.length_nil, List.drop_zero]
          intro x hx
          rcases List.mem_cons.1 hx with rfl | hx'
          · exact lt_of_not_le hts
          · exact lt_of_lt_of_le (lt_of_not_le hts) (hhead x hx')

/-- C1 witness: a sorted three-entry timeline ticked at time five releases
the two due commands in order onto the pending stack and leaves the future
entry, whose trigger time exceeds five. -/
theorem checkfile_release_sorted_wit :
    (([(0:ℚ), 3, 7]).Pairwise (· ≤ ·))
    ∧ checkfile 5 [0, 3, 7] [("A").toList, ("B").toList, ("C").toList] []
        = ([(7:ℚ)], [("C").toList], [("A").toList, ("B").toList]) := by
  constructor
  · decide
  · have h := checkfile_release_sorted 5 [0, 3, 7]
      [("A").toList, ("B").toList, ("C").toList] [] (by decide) (by decide)
    rw [h.1]
    decide

/-- C4: a line resolving to a registered command but supplying fewer tokens
than the mandatory prefix of its signature echoes the syntax-error message,
the offending line and the registered usage string, invokes no handler,
performs no coercion (the trace holds the three echoes and nothing else),
and later stacked lines are still processed. -/
theorem arity_too_few_rejects (hb : HandlerB) (ids : List Str) (line cmd : Str)
    (args : List Str) (help sig : Str)
    (hl : lookupA cmddict cmd = some (help, sig))
    (hn : args.length < (parseArgTypes sig).1.length) :
    dispatch hb ids line cmd args
      = [Event.echo (("Syntax error: Too few arguments").toList),
         Event.echo line, Event.echo help]
    ∧ (∀ (h : Str) (vs : List Val), Event.call h vs ∉ dispatch hb ids line cmd args)
    ∧ (∀ rest, processLines hb ids (line :: rest)
        = processLine hb ids line ++ processLines hb ids rest) := by
  have hd : dispatch hb ids line cmd args
      = [Event.echo (("Syntax error: Too few arguments").toList),
         Event.echo line, Event.echo help] := by
    simp only [dispatch, hl, runDict]
    rw [if_pos hn]
  refine ⟨hd, ?_, fun rest => rfl⟩
  intro h vs
  rw [hd]
  simp

/-- C4 witness: the ALT command has two mandatory parameters; dispatching it
with one token yields exactly the three echoes and no handler call. -/
theorem arity_too_few_rejects_wit :
    (lookupA cmddict ("ALT".toList)
      = some ((("ALT acid, alt, [vspd]").toList), (("acid,alt,[vspd]").toList)))
    ∧ dispatch hbNone [] ("ALT KL204".toList) ("ALT".toList) [("KL204").toList]
        = [Event.echo (("Syntax error: Too few arguments").toList),
           Event.echo ("ALT KL204".toList),
           Event.echo (("ALT acid, alt, [vspd]").toList)] := by
  refine ⟨by decide, ?_⟩
  exact (arity_too_few_rejects hbNone [] ("ALT KL204".toList) ("ALT".toList)
    [("KL204").toList] (("ALT acid, alt, [vspd]").toList)
    (("acid,alt,[vspd]").toList) (by decide) (by decide)).1

/-- C2 counterexample: dispatching ADDNODES with a non-numeric token raises
the caught coercion failure and the three echoes appear, but the handler is
then still invoked (with the partially built, here empty, argument list):
the function call at line 597 sits after the try block, so the claim that
the handler is not invoked for the line is false. -/
theorem coercefail_handler_called_cex :
    processLine hbNone [] ("ADDNODES X".toList)
      = [Event.echo (("Syntax error in processing arguments").toList),
         Event.echo ("ADDNODES X".toList),
         Event.echo (("ADDNODES number").toList),
         Event.call ("ADDNODES".toList) []]
    ∧ Event.call ("ADDNODES".toList) [] ∈ processLine hbNone [] ("ADDNODES X".toList) := by
  refine ⟨by decide, by decide⟩

/-- C2 (amended): when a caught coercion failure occurs while processing the
arguments of a registered command whose full signature is not a single txt,
the dispatcher echoes the generic error-processing-arguments message, the
offending line and the usage text, and subsequent lines still run; the
handler however is still invoked for this line, with the argument list
coerced up to the failure point. -/
theorem coercefail_reports_and_calls (hb : HandlerB) (ids : List Str)
    (line cmd : Str) (args : List Str) (help sig : Str) (st : CoOut)
    (hl : lookupA cmddict cmd = some (help, sig))
    (hnt : (parseArgTypes sig).2 ≠ [("txt").toList])
    (hn : ¬ args.length < (parseArgTypes sig).1.length)
    (hc : coLoop ids cmd ((parseArgTypes sig).2.zip args) 0 coInit = st)
    (hth : st.threw = true) :
    dispatch hb ids line cmd args
      = st.events
        ++ [Event.echo (("Syntax error in processing arguments").toList),
            Event.echo line, Event.echo help]
        ++ [Event.call cmd st.arglist]
        ++ protoEvents (hb cmd st.arglist) line cmd args help st.lastI false
    ∧ (∀ rest, processLines hb ids (line :: rest)
        = processLine hb ids line ++ processLines hb ids rest) := by
  refine ⟨?_, fun rest => rfl⟩
  simp only [dispatch, hl, runDict]
  rw [if_neg hn, if_neg hnt, hc, hth]
  simp

/-- C2 witness: the DT command declares a float; the token Q fails the
float coercion, the loop state records the escape to the outer except, and
the dispatch trace is the three echoes followed by the handler call with
the empty partial argument list. -/
theorem coercefail_reports_and_calls_wit :
    (coLoop [] ("DT".toList)
        ((parseArgTypes (("float").toList)).2.zip [("Q").toList]) 0 coInit
      = ⟨[], false, [], true, some 0⟩)
    ∧ dispatch hbNone [] ("DT Q".toList) ("DT".toList) [("Q").toList]
        = ([] : List Event)
          ++ [Event.echo (("Syntax error in processing arguments").toList),
              Event.echo ("DT Q".toList), Event.echo (("DT dt").toList)]
          ++ [Event.call ("DT".toList) []]
          ++ protoEvents (hbNone ("DT".toList) []) ("DT Q".toList) ("DT".toList)
              [("Q").toList] (("DT dt").toList) (some 0) false := by
  refine ⟨by decide, ?_⟩
  exact (coercefail_reports_and_calls hbNone [] ("DT Q".toList) ("DT".toList)
    [("Q").toList] (("DT dt").toList) (("float").toList)
    ⟨[], false, [], true, some 0⟩
    (by decide) (by decide) (by decide) (by decide) (by decide)).1

/-- C6 counterexample: for a command whose full signature is a single txt,
the wildcard token is not coerced to the null value: dispatching ECHO with
the star token passes the raw remainder, the star itself, to the handler. -/
theorem wildcard_single_txt_cex :
    processLine hbNone [] ("ECHO *".toList)
      = [Event.call ("ECHO".toList) [Val.vstr ("*".toList)]]
    ∧ Val.vstr ("*".toList) ≠ Val.vnone := by
  refine ⟨by decide, by decide⟩

/-- C6 (amended): for every declared tag handled by the per-token coercion
loop (that is, whenever the full signature is not the single-txt special
case), a token that is empty or the star wildcard coerces to the null value
regardless of the declared type, and the loop appends exactly that null
value to the argument list handed to the handler. -/
theorem wildcard_coerces_none (ids : List Str) (cmd ty tok : Str)
    (h : tok = [] ∨ tok = "*".toList) :
    coStep ids cmd ty tok = StepRes.ok [Val.vnone]
    ∧ (∀ (rest : List (Str × Str)) (i : Nat) (st : CoOut),
        coLoop ids cmd ((ty, tok) :: rest) i st
          = coLoop ids cmd rest (i + 1)
              { st with arglist := st.arglist ++ [Val.vnone], lastI := some i }) := by
  have hs : coStep ids cmd ty tok = StepRes.ok [Val.vnone] := by
    simp only [coStep]
    rw [if_pos h]
  refine ⟨hs, fun rest i st => ?_⟩
  simp only [coLoop, hs]

/-- C6 witness: the star token under the alt tag coerces to the null
value. -/
theorem wildcard_coerces_none_wit :
    ((("*").toList : Str) = [] ∨ (("*").toList : Str) = "*".toList)
    ∧ coStep [] ("ALT".toList) ("alt".toList) ("*".toList)
        = StepRes.ok [Val.vnone] :=
  ⟨Or.inr rfl,
   (wildcard_coerces_none [] ("ALT".toList) ("alt".toList) ("*".toList)
     (Or.inr rfl)).1⟩

/-- C8: a non-empty line whose resolved command name is found neither in the
synonym table nor the command dictionary, matches no built-in branch guard
and no extension prefix, echoes the unknown-command-or-aircraft message when
no argument tokens were supplied and the unknown-command message otherwise,
and later stacked lines are still processed. -/
theorem unknown_command_echo (hb : HandlerB) (ids : List Str) (rawline cmd : Str)
    (args : List Str)
    (hne : pyStrip rawline ≠ [])
    (hr : resolveCmd ids (pyStrip rawline) = (cmd, args))
    (hl : lookupA cmddict cmd = none)
    (hnb : noBuiltin cmd) :
    processLine hb ids rawline
      = [Event.echo
          ((if args.length = 0 then ("Unknown command or aircraft: ")
            else ("Unknown command: ")).toList ++ cmd)]
    ∧ (∀ rest, processLines hb ids (rawline :: rest)
        = processLine hb ids rawline ++ processLines hb ids rest) := by
  obtain ⟨h1, h2, h3, h4, h5, h6, h7, h8, h9, h10, h11, h12, h13, h14, h15, h16,
    h17, h18, h19, h20, h21, h22, h23, h24, h25, h26, h27, h28, h29⟩ := hnb
  refine ⟨?_, fun rest => rfl⟩
  simp only [processLine]
  rw [if_neg hne, hr]
  simp only [dispatch, hl, builtinChain]
  rw [if_neg h1, if_neg h2, if_neg h3, if_neg h4, if_neg h5, if_neg h6, if_neg h7,
    if_neg h8, if_neg h9, if_neg h10, if_neg h11, if_neg h12, if_neg h13,
    if_neg h14, if_neg h15, if_neg h16, if_neg h17, if_neg h18, if_neg h19,
    if_neg h20, if_neg h21, if_neg h22, if_neg h23, if_neg h24, if_neg h25,
    if_neg h26, if_neg h27, if_neg h28, if_neg h29]
  by_cases hz : args.length = 0
  · simp [hz]
  · simp [hz]

/-- C8 witness: the FOOBAR line with two argument tokens echoes the
unknown-command message, and with none the unknown-command-or-aircraft
message. -/
theorem unknown_command_echo_wit :
    processLine hbNone [] ("FOOBAR 1,2".toList)
      = [Event.echo (("Unknown command: ").toList ++ ("FOOBAR").toList)]
    ∧ processLine hbNone [] ("FOOBAR".toList)
      = [Event.echo (("Unknown command or aircraft: ").toList ++ ("FOOBAR").toList)] := by
  have hnb : noBuiltin (("FOOBAR").toList) := by
    unfold noBuiltin
    refine ⟨?_, ?_, ?_, ?_, ?_, ?_, ?_, ?_, ?_, ?_, ?_, ?_, ?_, ?_, ?_, ?_, ?_,
      ?_, ?_, ?_, ?_, ?_, ?_, ?_, ?_, ?_, ?_, ?_, ?_⟩ <;> decide
  constructor
  · have h := unknown_command_echo hbNone [] ("FOOBAR 1,2".toList) ("FOOBAR".toList)
      [("1").toList, ("2").toList] (by decide) (by decide) (by decide) hnb
    simpa using h.1
  · have h := unknown_command_echo hbNone [] ("FOOBAR".toList) ("FOOBAR".toList)
      [] (by decide) (by decide) (by decide) hnb
    simpa using h.1

/-- C9 counterexample: in a signature that is not a single txt, a txt
argument reaches the handler from the upper-cased copy of the line: LOG is
registered with signature txt then float, and the handler receives the
upper-cased token instead of the original lower-case text, so free-text
arguments do not in general preserve the original casing. -/
theorem txt_casing_cex :
    processLine hbNone [] ("LOG abc,".toList)
      = [Event.call ("LOG".toList) [Val.vstr ("ABC".toList), Val.vnone]]
    ∧ (("ABC").toList : Str) ≠ ("abc").toList := by
  refine ⟨by decide, by decide⟩

/-- C9 (amended): command names are matched case-insensitively (name and
argument resolution depends only on the upper-cased line), and when the full
signature is a single txt the handler receives the raw slice of the original
line past the command name, preserving its casing; txt tokens of other
signatures are taken from the upper-cased copy. -/
theorem casing_resolution_and_raw_slice :
    (∀ (ids : List Str) (l1 l2 : Str), pyUpper l1 = pyUpper l2 →
        resolveCmd ids l1 = resolveCmd ids l2)
    ∧ (∀ (hb : HandlerB) (ids : List Str) (line cmd : Str) (args : List Str)
        (help sig : Str),
        lookupA cmddict cmd = some (help, sig) →
        (parseArgTypes sig).2 = [("txt").toList] →
        ¬ args.length < (parseArgTypes sig).1.length →
        Event.call cmd [Val.vstr (line.drop (cmd.length + 1))]
          ∈ dispatch hb ids line cmd args) := by
  constructor
  · intro ids l1 l2 h
    simp only [resolveCmd]
    rw [h]
  · intro hb ids line cmd args help sig hl ht hn
    simp only [dispatch, hl, runDict]
    rw [if_neg hn, if_pos ht]
    exact List.mem_cons_self _ _

/-- C9 witness: a lower-case spelling of ECHO resolves exactly as the
upper-case spelling, and the single-txt ECHO handler receives the raw
remainder of the line with its original mixed casing. -/
theorem casing_resolution_and_raw_slice_wit :
    (pyUpper ("echo Hi".toList) = pyUpper ("ECHO HI".toList)
      ∧ resolveCmd [] ("echo Hi".toList) = resolveCmd [] ("ECHO HI".toList))
    ∧ Event.call ("ECHO".toList)
        [Val.vstr ((("ECHO Hello World").toList).drop ((("ECHO").toList).length + 1))]
        ∈ dispatch hbNone [] ("ECHO Hello World".toList) ("ECHO".toList)
            [("HELLO").toList, ("WORLD").toList] := by
  constructor
  · exact ⟨by decide, casing_resolution_and_raw_slice.1 [] ("echo Hi".toList)
      ("ECHO HI".toList) (by decide)⟩
  · exact casing_resolution_and_raw_slice.2 hbNone [] ("ECHO Hello World".toList)
      ("ECHO".toList) [("HELLO").toList, ("WORLD").toList]
      (("ECHO txt").toList) (("txt").toList) (by decide) (by decide) (by decide)

end BlueSky
